import Mathlib

/-!
Verification of the metadata attachment store implemented in
onadata/apps/main/models/meta_data.py.

The development shallowly embeds the module: the MetaData record and its
datastore, the find-or-create-or-update helpers (type_for_form,
unique_type_for_form), the typed operations built on them (public_link,
supporting_docs, external_export), the content hasher, the lazy media
resolver (create_media, media_resources), the map-layer field codec used by
mapbox_layer_upload, and the external-export value parser.

External collaborators that are not part of the module (the url validator,
mimetypes.guess_type, the md5 hex digest, and the streaming HTTP fetch) are
passed as explicit function parameters.  Python strings are Lean strings;
the Python string builtins the module uses (split, join, replace) are given
executable models below.  Exceptions are modelled with Except.
-/

/-- A Python value held in the data_value character field: the source stores
None, booleans (public_link passes True through unconverted) and strings. -/
inductive PyV where
  | none
  | bool (b : Bool)
  | str (s : String)
deriving DecidableEq

/-- Python truthiness of a data_value. -/
def pyTruthy : PyV → Bool
  | PyV.none => false
  | PyV.bool b => b
  | PyV.str s => s != ""

/-- The emptiness test at line 58 of the source:
result.data_value is None or result.data_value equals the empty string. -/
def valueEmpty : PyV → Bool
  | PyV.none => true
  | PyV.bool _ => false
  | PyV.str s => s == ""

/-- A content-type value: a plain string for declared upload types, or the
(type, encoding) pair that mimetypes.guess_type returns and create_media
passes through unchanged. -/
inductive PyCT where
  | str (s : String)
  | pair (t enc : Option String)
deriving DecidableEq

/-- An attached file: its name, declared content type, byte content, and the
behaviour of the storage collaborators (whether a seek to the start
succeeds, and what data_file.storage.exists reports). -/
structure FileData where
  name : String
  content_type : PyCT
  content : List UInt8
  seekOk : Bool
  existsInStorage : Bool
deriving DecidableEq

/-- Django file truthiness: bool of a FieldFile is bool of its name. -/
def fileTruthy : Option FileData → Bool
  | Option.none => false
  | Option.some f => f.name != ""

/-- The name attribute read by media_resources at line 118: the empty string
when no file is attached. -/
def dataFileName : Option FileData → String
  | Option.none => ""
  | Option.some f => f.name

/-- The MetaData model (lines 129-139).  The id is assigned by the datastore
on insert; an unset character field defaults to the empty string and the
nullable fields to None. -/
structure MetaData where
  id : Option Nat
  xform : Nat
  data_type : String
  data_value : PyV
  data_file : Option FileData
  data_file_type : Option PyCT
  file_hash : Option String
deriving DecidableEq

/-- The construction MetaData(data_type=..., xform=...) at line 50, with the
Django instance defaults for the remaining fields. -/
def MetaData.new (data_type : String) (xform : Nat) : MetaData :=
  { id := Option.none, xform := xform, data_type := data_type,
    data_value := PyV.str "", data_file := Option.none,
    data_file_type := Option.none, file_hash := Option.none }

/-- The triple constrained by unique_together at line 139. -/
def tripleOf (m : MetaData) : Nat × String × PyV :=
  (m.xform, m.data_type, m.data_value)

/-- The datastore: the persisted rows plus the next primary key. -/
structure Db where
  records : List MetaData
  nextId : Nat
deriving DecidableEq

/-- Python exceptions that the module can raise. -/
inductive PyError where
  | typeError
  | integrityError
  | nameError
deriving DecidableEq

/-! ## Models of the Python string builtins used by the module -/

/-- Python split with a one-character separator, on character lists. -/
def splitCh (sep : Char) : List Char → List (List Char)
  | [] => [[]]
  | c :: rest =>
      if c = sep then [] :: splitCh sep rest
      else
        match splitCh sep rest with
        | [] => [[c]]
        | p :: ps => (c :: p) :: ps

/-- Python split on the two-character delimiter of the map-layer codec:
scan left to right, cutting at each non-overlapping occurrence of two
consecutive pipe characters. -/
def splitPP : List Char → List (List Char)
  | [] => [[]]
  | [c] => [[c]]
  | c :: d :: rest =>
      if c = '|' ∧ d = '|' then [] :: splitPP rest
      else
        match splitPP (d :: rest) with
        | [] => [[c]]
        | p :: ps => (c :: p) :: ps

/-- Python split with a one-character separator, on strings. -/
def pySplitCh (sep : Char) (s : String) : List String :=
  (splitCh sep s.data).map (fun l => String.mk l)

/-- Python split on the two-pipe delimiter, on strings. -/
def pySplit2 (s : String) : List String :=
  (splitPP s.data).map (fun l => String.mk l)

/-- Python join. -/
def pyJoin (sep : String) : List String → String
  | [] => ""
  | [s] => s
  | s :: rest => s ++ sep ++ pyJoin sep rest

/-- Python replace, specialised to the call at line 296: every
non-overlapping occurrence of xls, scanned left to right, becomes
templates. -/
def replaceXlsCh : List Char → List Char
  | 'x' :: 'l' :: 's' :: rest =>
      't' :: 'e' :: 'm' :: 'p' :: 'l' :: 'a' :: 't' :: 'e' :: 's' :: replaceXlsCh rest
  | c :: rest => c :: replaceXlsCh rest
  | [] => []

/-- String form of the xls-to-templates replacement. -/
def pyReplaceXls (s : String) : String := String.mk (replaceXlsCh s.data)

/-! ## The content hasher (lines 141-170) -/

/-- MetaData._set_hash (lines 152-170).  A record with no truthy attached
file (Django file truthiness is by name) yields None.  Otherwise the
existence check of lines 156-159 is evaluated; on the seek failure of lines
160-163 the empty-string sentinel is returned without caching; otherwise the
md5 digest of the full stream is computed (one stream read), formatted with
the algorithm prefix, cached on the record and returned.  The result is
(updated record, returned value, number of stream reads). -/
def MetaData._set_hash (md5hex : List UInt8 → String) (m : MetaData) :
    MetaData × Option String × Nat :=
  match m.data_file with
  | Option.none => (m, Option.none, 0)
  | Option.some f =>
      if f.name == "" then (m, Option.none, 0)
      else
        if (f.existsInStorage && f.name != "") || (!f.existsInStorage && f.name != "") then
          if f.seekOk then
            let h := "md5:" ++ md5hex f.content
            ({ m with file_hash := Option.some h }, Option.some h, 1)
          else (m, Option.some "", 0)
        else (m, Option.some "", 0)

/-- The hash property (lines 145-150): return the cached non-empty
file_hash, else recompute via _set_hash. -/
def MetaData.hash (md5hex : List UInt8 → String) (m : MetaData) :
    Option String × MetaData × Nat :=
  match m.file_hash with
  | Option.some h =>
      if h != "" then (Option.some h, m, 0)
      else
        let r := MetaData._set_hash md5hex m
        (r.2.1, r.1, r.2.2)
  | Option.none =>
      let r := MetaData._set_hash md5hex m
      (r.2.1, r.1, r.2.2)

/-! ## The datastore write (lines 129-143) -/

/-- The write performed by Model.save under the storage-level
unique_together constraint on (xform, data_type, data_value) declared at
line 139: a clashing row raises IntegrityError; otherwise a record without a
primary key is inserted with the next id, and a keyed record updates the row
holding its id. -/
def dbWrite (m : MetaData) (db : Db) : Except PyError (MetaData × Db) :=
  if db.records.any (fun r => decide (tripleOf r = tripleOf m ∧ r.id ≠ m.id)) then
    Except.error PyError.integrityError
  else
    match m.id with
    | Option.none =>
        let m2 := { m with id := Option.some db.nextId }
        Except.ok (m2, { records := db.records ++ [m2], nextId := db.nextId + 1 })
    | Option.some i =>
        Except.ok (m, { records := db.records.map (fun r => if r.id = Option.some i then m else r),
                        nextId := db.nextId })

/-- MetaData.save (lines 141-143): recompute the hash, then persist. -/
def MetaData.save (md5hex : List UInt8 → String) (m : MetaData) (db : Db) :
    Except PyError (MetaData × Db) :=
  dbWrite ((MetaData._set_hash md5hex m).1) db

/-! ## type_for_form and unique_type_for_form (lines 45-75) -/

/-- Python truthiness of the optional form_metadata collection. -/
def listTruthy (l : Option (List MetaData)) : Bool :=
  match l with
  | Option.none => false
  | Option.some ms => !ms.isEmpty

/-- The filtering of a supplied form_metadata collection at line 73. -/
def matchesOf (form_metadata : Option (List MetaData)) (data_type : String) :
    List MetaData :=
  (form_metadata.getD []).filter (fun m => m.data_type == data_type)

/-- type_for_form (lines 68-75).  A truthy form_metadata collection is
filtered by data_type.  The database branch evaluates order_by(-id), that
is, unary minus applied to the Python builtin function id, which raises
TypeError before any query is issued (metadata_for_form at line 81 passes
the minus inside a string literal instead). -/
def type_for_form (xform : Nat) (data_type : String)
    (form_metadata : Option (List MetaData)) (db : Db) :
    Except PyError (List MetaData) :=
  if listTruthy form_metadata then Except.ok (matchesOf form_metadata data_type)
  else Except.error PyError.typeError

/-- The mutation steps of unique_type_for_form once the matches are known
(lines 48-65): take the first match as mutation target or build a new record
(marking it modified), set a truthy data_value, attach a truthy data_file
(defaulting an empty value to the file name), and save once when anything
was marked modified.  The result carries the returned record, the datastore,
and the number of persistence writes. -/
def upsertCore (md5hex : List UInt8 → String) (xform : Nat)
    (data_type : String) (data_value : PyV) (data_file : Option FileData)
    (all_matches : List MetaData) (db : Db) :
    Except PyError (MetaData × Db × Nat) :=
  let st :=
    match all_matches with
    | [] => (MetaData.new data_type xform, true)
    | m :: _ => (m, false)
  let st :=
    if pyTruthy data_value then ({ st.1 with data_value := data_value }, true)
    else st
  let st :=
    match data_file with
    | Option.some f =>
        if f.name == "" then st
        else
          let r :=
            if valueEmpty st.1.data_value then { st.1 with data_value := PyV.str f.name }
            else st.1
          let r2 := { r with data_file := Option.some f }
          ({ r2 with data_file_type := Option.some f.content_type }, true)
    | Option.none => st
  if st.2 then
    match MetaData.save md5hex st.1 db with
    | Except.error e => Except.error e
    | Except.ok (r, db2) => Except.ok (r, db2, 1)
  else Except.ok (st.1, db, 0)

/-- unique_type_for_form (lines 45-65): query the matches through
type_for_form (line 47), then run the mutation steps. -/
def unique_type_for_form (md5hex : List UInt8 → String) (xform : Nat)
    (data_type : String) (data_value : PyV) (data_file : Option FileData)
    (form_metadata : Option (List MetaData)) (db : Db) :
    Except PyError (MetaData × Db × Nat) :=
  match type_for_form xform data_type form_metadata db with
  | Except.error e => Except.error e
  | Except.ok all_matches =>
      upsertCore md5hex xform data_type data_value data_file all_matches db

/-! ## Typed operations (lines 172-279) -/

/-- MetaData.public_link (lines 172-183), embedded for the default call: the
source forwards its form_metadata argument positionally into the data_file
slot of unique_type_for_form, so the form_metadata slot of the callee is
always None and the meaningful call is the one with the default None, where
the data_file slot receives None as well.  False is re-encoded as the text
False (True is passed through as a boolean), the value is upserted, and the
stored value is compared against the text True. -/
def MetaData.public_link (md5hex : List UInt8 → String) (xform : Nat)
    (data_value : PyV) (db : Db) : Except PyError (Bool × Db) :=
  let dv := if data_value = PyV.bool false then PyV.str "False" else data_value
  match unique_type_for_form md5hex xform "public_link" dv Option.none Option.none db with
  | Except.error e => Except.error e
  | Except.ok (metadata, db2, _) =>
      if metadata.data_value = PyV.str "True" then Except.ok (true, db2)
      else Except.ok (false, db2)

/-- MetaData.supporting_docs (lines 201-210): a truthy file always creates
and saves a fresh record valued with the file name, then the current list is
returned through type_for_form. -/
def MetaData.supporting_docs (md5hex : List UInt8 → String) (xform : Nat)
    (data_file : Option FileData) (form_metadata : Option (List MetaData))
    (db : Db) : Except PyError (List MetaData × Db) :=
  match data_file with
  | Option.some f =>
      if f.name == "" then
        match type_for_form xform "supporting_doc" form_metadata db with
        | Except.error e => Except.error e
        | Except.ok l => Except.ok (l, db)
      else
        match MetaData.save md5hex
            { id := Option.none, xform := xform, data_type := "supporting_doc",
              data_value := PyV.str f.name, data_file := Option.some f,
              data_file_type := Option.some f.content_type,
              file_hash := Option.none } db with
        | Except.error e => Except.error e
        | Except.ok (_, db2) =>
            match type_for_form xform "supporting_doc" form_metadata db2 with
            | Except.error e => Except.error e
            | Except.ok l => Except.ok (l, db2)
  | Option.none =>
      match type_for_form xform "supporting_doc" form_metadata db with
      | Except.error e => Except.error e
      | Except.ok l => Except.ok (l, db)

/-- MetaData.external_export (lines 269-279): a truthy value creates, saves
and returns a fresh record; the read path references the name form_metadata,
which is not bound in this function, and raises NameError. -/
def MetaData.external_export (md5hex : List UInt8 → String) (xform : Nat)
    (data_value : PyV) (db : Db) : Except PyError (MetaData × Db) :=
  if pyTruthy data_value then
    match MetaData.save md5hex
        { id := Option.none, xform := xform, data_type := "external_export",
          data_value := data_value, data_file := Option.none,
          data_file_type := Option.none, file_hash := Option.none } db with
    | Except.error e => Except.error e
    | Except.ok (r, db2) => Except.ok (r, db2)
  else Except.error PyError.nameError

/-! ## The media resolver (lines 84-126) -/

/-- create_media (lines 84-104): on a valid url, derive the filename from
the final path segment of the value, guess a content type from that
filename, stream the body in chunks (skipping empty chunks) into a
temporary buffer, measure the buffered size, rewrite data_value to the
filename and attach the buffered bytes as an in-memory upload that is not
yet in storage; an invalid url yields None.  The url validator,
mimetypes.guess_type and the chunked fetch are external collaborators. -/
def create_media (valid_url : String → Bool)
    (guess_type : String → Option String × Option String)
    (fetch : String → List (List UInt8)) (media : MetaData) : Option MetaData :=
  match media.data_value with
  | PyV.str uri =>
      if valid_url uri then
        let filename := (pySplitCh '/' uri).getLastD ""
        let content := ((fetch uri).filter (fun c => !c.isEmpty)).flatten
        Option.some { media with
          data_value := PyV.str filename,
          data_file := Option.some
            { name := filename,
              content_type := PyCT.pair (guess_type filename).1 (guess_type filename).2,
              content := content, seekOk := true, existsInStorage := false } }
      else Option.none
  | _ => Option.none

/-- media_resources (lines 107-126): a record whose file name reads empty is
resolved when download is requested and kept only if resolution succeeded;
every other record is kept unchanged. -/
def media_resources (valid_url : String → Bool)
    (guess_type : String → Option String × Option String)
    (fetch : String → List (List UInt8))
    (media_list : List MetaData) (download : Bool) : List MetaData :=
  match media_list with
  | [] => []
  | media :: rest =>
      if dataFileName media.data_file == "" && download then
        match create_media valid_url guess_type fetch media with
        | Option.some m => m :: media_resources valid_url guess_type fetch rest download
        | Option.none => media_resources valid_url guess_type fetch rest download
      else media :: media_resources valid_url guess_type fetch rest download

/-! ## The map-layer field codec (lines 239-267) -/

/-- The serialisation at line 250 of mapbox_layer_upload: the data fields,
in canonical key order with absent keys read as empty, joined with the
two-pipe delimiter. -/
def mapbox_serialize (data : List (String × String)) (keys : List String) : String :=
  pyJoin "||" (keys.map (fun key => (data.lookup key).getD ""))

/-- The deserialisation block at lines 253-263 of mapbox_layer_upload: split
the stored value on the delimiter; fewer pieces than canonical keys signals
corrupted stored data, which is logged and surfaced as no value rather than
raised; otherwise pieces are zipped to keys positionally (extra trailing
pieces are ignored; the surrounding read path at line 264 additionally
injects the record id into the resulting map). -/
def mapbox_deserialize (value : String) (keys : List String) :
    Option (List (String × String)) :=
  let values := pySplit2 value
  if values.length < keys.length then Option.none
  else Option.some (keys.zip values)

/-! ## The external-export value parser (lines 281-297) -/

/-- external_export_url (lines 281-285): the second piece of the value split
on the pipe character, or None when there is no second piece.  Export
records hold string values, so only the string case is inhabited. -/
def MetaData.external_export_url (m : MetaData) : Option String :=
  match m.data_value with
  | PyV.str s =>
      let parts := pySplitCh '|' s
      if parts.length > 1 then parts[1]? else Option.none
  | _ => Option.none

/-- external_export_name (lines 287-291): the first piece of the pipe split
when a second piece exists, else None. -/
def MetaData.external_export_name (m : MetaData) : Option String :=
  match m.data_value with
  | PyV.str s =>
      let parts := pySplitCh '|' s
      if parts.length > 1 then parts[0]? else Option.none
  | _ => Option.none

/-- external_export_template (lines 293-297): the second pipe piece with
every occurrence of xls replaced by templates, when a second piece exists. -/
def MetaData.external_export_template (m : MetaData) : Option String :=
  match m.data_value with
  | PyV.str s =>
      let parts := pySplitCh '|' s
      if parts.length > 1 then (parts[1]?).map pyReplaceXls else Option.none
  | _ => Option.none

/-! ## Datastore invariants -/

/-- At most one persisted record per (xform, data_type, data_value). -/
def Db.UniqueTriples (db : Db) : Prop :=
  db.records.Pairwise (fun a b => tripleOf a ≠ tripleOf b)

/-- A bounded primary key. -/
def idLt (o : Option Nat) (n : Nat) : Bool :=
  match o with
  | Option.some i => i < n
  | Option.none => false

/-- Persisted rows carry pairwise-distinct primary keys below the next id. -/
def Db.Wf (db : Db) : Prop :=
  (∀ r ∈ db.records, idLt r.id db.nextId = true) ∧
  db.records.Pairwise (fun a b => a.id ≠ b.id)

/-- Some persisted row carries the given triple. -/
def TripleIn (db : Db) (xf : Nat) (dt : String) (v : PyV) : Prop :=
  ∃ r ∈ db.records, r.xform = xf ∧ r.data_type = dt ∧ r.data_value = v ∧
    r.id ≠ Option.none

example : splitPP ('x' :: '|' :: '|' :: 'y' :: []) = [['x'], ['y']] := rfl

example : pySplit2 "x|||y" = ["x", "|y"] := rfl

example : pySplitCh '|' "a|b|c" = ["a", "b", "c"] := rfl

example : pyReplaceXls "https://host/path/file.xls" = "https://host/path/file.templates" := rfl

example : ("ab".data) = ['a', 'b'] := rfl

/-! ## Lemmas about the string builtins -/

theorem string_mk_data (s : String) : String.mk s.data = s := rfl

theorem splitCh_ne_nil (sep : Char) (l : List Char) : splitCh sep l ≠ [] := by
  cases l with
  | nil => simp [splitCh]
  | cons c rest =>
      unfold splitCh
      by_cases h : c = sep
      · simp [h]
      · rw [if_neg h]
        cases splitCh sep rest <;> simp

theorem splitCh_no_sep (sep : Char) (l : List Char) (h : sep ∉ l) :
    splitCh sep l = [l] := by
  induction l with
  | nil => rfl
  | cons c rest ih =>
      have hc : ¬c = sep := fun e => h (by rw [← e]; exact List.mem_cons_self c rest)
      have hr : sep ∉ rest := fun hm => h (List.mem_cons_of_mem c hm)
      unfold splitCh
      rw [if_neg hc, ih hr]

theorem splitCh_append (sep : Char) (p t : List Char) (h : sep ∉ p) :
    splitCh sep (p ++ sep :: t) = p :: splitCh sep t := by
  induction p with
  | nil =>
      show splitCh sep (sep :: t) = [] :: splitCh sep t
      simp [splitCh]
  | cons c p2 ih =>
      have hc : ¬c = sep := fun e => h (by rw [← e]; exact List.mem_cons_self c p2)
      have hp2 : sep ∉ p2 := fun hm => h (List.mem_cons_of_mem c hm)
      show splitCh sep (c :: (p2 ++ sep :: t)) = (c :: p2) :: splitCh sep t
      simp only [splitCh]
      have ih2 : splitCh sep (p2 ++ sep :: t) = p2 :: splitCh sep t := ih hp2
      rw [if_neg hc, ih2]

/-- Whether two consecutive pipe characters occur in the list. -/
def hasPP : List Char → Bool
  | c :: d :: rest => (c == '|' && d == '|') || hasPP (d :: rest)
  | _ => false

theorem splitPP_no_sep (p : List Char) (h : hasPP p = false) : splitPP p = [p] := by
  induction p with
  | nil => rfl
  | cons c p2 ih =>
      cases p2 with
      | nil => rfl
      | cons d p3 =>
          have hcd : ¬(c = '|' ∧ d = '|') := by
            rintro ⟨rfl, rfl⟩
            simp [hasPP] at h
          have h2 : hasPP (d :: p3) = false := by
            unfold hasPP at h
            exact (Bool.or_eq_false_iff.mp h).2
          simp only [splitPP]
          rw [if_neg hcd, ih h2]

theorem splitPP_append (p t : List Char) (hno : hasPP p = false)
    (hlast : p.getLast? ≠ Option.some '|') :
    splitPP (p ++ '|' :: '|' :: t) = p :: splitPP t := by
  induction p with
  | nil =>
      show splitPP ('|' :: '|' :: t) = [] :: splitPP t
      simp [splitPP]
  | cons c p2 ih =>
      cases p2 with
      | nil =>
          have hc : ¬c = '|' := by simpa using hlast
          show splitPP (c :: '|' :: '|' :: t) = [c] :: splitPP t
          simp only [splitPP]
          rw [if_neg (fun hh => hc hh.1)]
          simp
      | cons d p3 =>
          have hcd : ¬(c = '|' ∧ d = '|') := by
            rintro ⟨rfl, rfl⟩
            simp [hasPP] at hno
          have hno2 : hasPP (d :: p3) = false := by
            unfold hasPP at hno
            exact (Bool.or_eq_false_iff.mp hno).2
          have hlast2 : (d :: p3).getLast? ≠ Option.some '|' := by
            rwa [List.getLast?_cons_cons] at hlast
          show splitPP (c :: d :: (p3 ++ '|' :: '|' :: t)) = (c :: d :: p3) :: splitPP t
          simp only [splitPP]
          have ih2 : splitPP (d :: (p3 ++ '|' :: '|' :: t)) = (d :: p3) :: splitPP t :=
            ih hno2 hlast2
          rw [if_neg hcd, ih2]

/-- The character-level image of the pipe-pipe join. -/
def joinPP : List (List Char) → List Char
  | [] => []
  | [p] => p
  | p :: rest => p ++ '|' :: '|' :: joinPP rest

theorem pyJoin_data (l : List String) :
    (pyJoin "||" l).data = joinPP (l.map String.data) := by
  induction l with
  | nil => rfl
  | cons s rest ih =>
      cases rest with
      | nil => rfl
      | cons s2 r2 =>
          show (s ++ "||" ++ pyJoin "||" (s2 :: r2)).data
              = s.data ++ '|' :: '|' :: joinPP ((s2 :: r2).map String.data)
          rw [String.data_append, String.data_append, ih]
          rw [show ("||".data : List Char) = ['|', '|'] from rfl, List.append_assoc]
          rfl

theorem splitPP_joinPP (parts : List (List Char)) (hne : parts ≠ [])
    (hcl : ∀ p ∈ parts, hasPP p = false ∧ p.getLast? ≠ Option.some '|') :
    splitPP (joinPP parts) = parts := by
  induction parts with
  | nil => exact absurd rfl hne
  | cons p rest ih =>
      cases rest with
      | nil =>
          exact splitPP_no_sep p (hcl p (List.mem_cons_self p [])).1
      | cons q r2 =>
          show splitPP (p ++ '|' :: '|' :: joinPP (q :: r2)) = p :: q :: r2
          rw [splitPP_append p (joinPP (q :: r2)) (hcl p (List.mem_cons_self p (q :: r2))).1
            (hcl p (List.mem_cons_self p (q :: r2))).2]
          rw [ih (by simp) (fun x hx => hcl x (List.mem_cons_of_mem p hx))]

theorem pySplit2_pyJoin (parts : List String) (hne : parts ≠ [])
    (hcl : ∀ p ∈ parts, hasPP p.data = false ∧ p.data.getLast? ≠ Option.some '|') :
    pySplit2 (pyJoin "||" parts) = parts := by
  unfold pySplit2
  rw [pyJoin_data]
  rw [splitPP_joinPP (parts.map String.data) (by simpa using hne)
    (fun x hx => by
      rcases List.mem_map.mp hx with ⟨y, hy, rfl⟩
      exact hcl y hy)]
  simp [List.map_map, Function.comp_def, string_mk_data]

theorem lookup_map_self (v : String → String) (keys : List String) (k : String)
    (hk : k ∈ keys) :
    (keys.map (fun key => (key, v key))).lookup k = Option.some (v k) := by
  induction keys with
  | nil => cases hk
  | cons a rest ih =>
      by_cases hak : k = a
      · subst hak
        simp [List.lookup]
      · have hk2 : k ∈ rest := by
          rcases List.mem_cons.mp hk with h | h
          · exact absurd h hak
          · exact h
        have hbeq : (k == a) = false := by simpa using hak
        simp only [List.map_cons, List.lookup, hbeq]
        exact ih hk2

theorem zip_self_map (v : String → String) (keys : List String) :
    keys.zip (keys.map v) = keys.map (fun k => (k, v k)) := by
  induction keys with
  | nil => rfl
  | cons a rest ih => simp [List.zip_cons_cons, ih]

/-! ## Lemmas about the hasher and the datastore write -/

theorem set_hash_shape (md5hex : List UInt8 → String) (m : MetaData) :
    ∃ fh, (MetaData._set_hash md5hex m).1 = { m with file_hash := fh } := by
  rcases m with ⟨i, xf, dt, dv, df, dft, fh0⟩
  rcases df with _ | f
  · exact ⟨fh0, rfl⟩
  · by_cases h1 : f.name == ""
    · exact ⟨fh0, by simp [MetaData._set_hash, h1]⟩
    · have hn : ¬f.name = "" := by simpa using h1
      by_cases h2 : f.seekOk
      · refine ⟨Option.some ("md5:" ++ md5hex f.content), ?_⟩
        cases hE : f.existsInStorage <;> simp [MetaData._set_hash, h1, h2, hE, hn]
      · refine ⟨fh0, ?_⟩
        cases hE : f.existsInStorage <;> simp [MetaData._set_hash, h1, h2, hE, hn]

theorem dbWrite_ok_cases (m r : MetaData) (db db2 : Db)
    (h : dbWrite m db = Except.ok (r, db2)) :
    (∀ x ∈ db.records, ¬(tripleOf x = tripleOf m ∧ x.id ≠ m.id)) ∧
    ((m.id = Option.none ∧ r = { m with id := Option.some db.nextId } ∧
        db2 = { records := db.records ++ [r], nextId := db.nextId + 1 }) ∨
      (∃ i, m.id = Option.some i ∧ r = m ∧
        db2 = { records := db.records.map (fun x => if x.id = Option.some i then m else x),
                nextId := db.nextId })) := by
  unfold dbWrite at h
  by_cases hc : db.records.any (fun x => decide (tripleOf x = tripleOf m ∧ x.id ≠ m.id)) = true
  · rw [if_pos hc] at h
    cases h
  · rw [if_neg hc] at h
    refine ⟨?_, ?_⟩
    · intro x hx hcontra
      apply hc
      rw [List.any_eq_true]
      exact ⟨x, hx, by simpa using hcontra⟩
    · rcases hid : m.id with _ | i
      · simp only [hid] at h
        left
        refine ⟨rfl, ?_, ?_⟩
        · have := (Except.ok.injEq _ _).mp h
          exact (Prod.mk.injEq _ _ _ _).mp this |>.1.symm
        · have := (Except.ok.injEq _ _).mp h
          have h2 := (Prod.mk.injEq _ _ _ _).mp this
          rw [← h2.2, ← h2.1]
      · simp only [hid] at h
        right
        refine ⟨i, rfl, ?_, ?_⟩
        · have := (Except.ok.injEq _ _).mp h
          exact (Prod.mk.injEq _ _ _ _).mp this |>.1.symm
        · have := (Except.ok.injEq _ _).mp h
          exact ((Prod.mk.injEq _ _ _ _).mp this).2.symm

theorem save_ok_shape (md5hex : List UInt8 → String) (m r : MetaData) (db db2 : Db)
    (h : MetaData.save md5hex m db = Except.ok (r, db2)) :
    ∃ oid fh, r = { m with id := oid, file_hash := fh } := by
  obtain ⟨fh, hsh⟩ := set_hash_shape md5hex m
  unfold MetaData.save at h
  rw [hsh] at h
  rcases (dbWrite_ok_cases _ _ _ _ h).2 with ⟨hid, hr, _⟩ | ⟨i, hid, hr, _⟩
  · exact ⟨Option.some db.nextId, fh, by rw [hr]⟩
  · exact ⟨m.id, fh, by rw [hr]⟩

theorem save_ok_fields (md5hex : List UInt8 → String) (m r : MetaData) (db db2 : Db)
    (h : MetaData.save md5hex m db = Except.ok (r, db2)) :
    r.data_value = m.data_value ∧ r.data_file = m.data_file ∧
    r.data_file_type = m.data_file_type ∧ r.xform = m.xform ∧
    r.data_type = m.data_type := by
  obtain ⟨oid, fh, hr⟩ := save_ok_shape md5hex m r db db2 h
  subst hr
  exact ⟨rfl, rfl, rfl, rfl, rfl⟩

theorem save_ok_mem (md5hex : List UInt8 → String) (m r : MetaData) (db db2 : Db)
    (hid : m.id = Option.none)
    (h : MetaData.save md5hex m db = Except.ok (r, db2)) : r ∈ db2.records := by
  obtain ⟨fh, hsh⟩ := set_hash_shape md5hex m
  unfold MetaData.save at h
  rw [hsh] at h
  rcases (dbWrite_ok_cases _ _ _ _ h).2 with ⟨_, _, hdb⟩ | ⟨i, hid2, _, _⟩
  · rw [hdb]
    exact List.mem_append_right _ (List.mem_cons_self _ _)
  · have h4 : m.id = Option.some i := hid2
    rw [hid] at h4
    exact Option.noConfusion h4

theorem pairwise_append_new (mm : MetaData) (l : List MetaData)
    (htr : l.Pairwise (fun a b => tripleOf a ≠ tripleOf b))
    (hnew : ∀ x ∈ l, tripleOf x ≠ tripleOf mm) :
    (l ++ [mm]).Pairwise (fun a b => tripleOf a ≠ tripleOf b) := by
  rw [List.pairwise_append]
  refine ⟨htr, List.pairwise_singleton _ _, fun a ha b hb => ?_⟩
  rcases List.mem_singleton.mp hb with rfl
  exact hnew a ha

theorem pairwise_map_update (mm : MetaData) (i : Nat) (l : List MetaData)
    (hids : l.Pairwise (fun a b => a.id ≠ b.id))
    (htr : l.Pairwise (fun a b => tripleOf a ≠ tripleOf b))
    (hconf : ∀ x ∈ l, ¬(tripleOf x = tripleOf mm ∧ x.id ≠ Option.some i)) :
    (l.map (fun x => if x.id = Option.some i then mm else x)).Pairwise
      (fun a b => tripleOf a ≠ tripleOf b) := by
  induction l with
  | nil => simp
  | cons x t ih =>
      rcases List.pairwise_cons.mp hids with ⟨hxids, hids2⟩
      rcases List.pairwise_cons.mp htr with ⟨hxtr, htr2⟩
      have hconf2 : ∀ y ∈ t, ¬(tripleOf y = tripleOf mm ∧ y.id ≠ Option.some i) :=
        fun y hy => hconf y (List.mem_cons_of_mem x hy)
      rw [List.map_cons]
      refine List.pairwise_cons.mpr ⟨?_, ih hids2 htr2 hconf2⟩
      intro y hy
      rcases List.mem_map.mp hy with ⟨z, hz, rfl⟩
      by_cases hzi : z.id = Option.some i
      · rw [if_pos hzi]
        by_cases hxi : x.id = Option.some i
        · exact absurd (hxi.trans hzi.symm) (hxids z hz)
        · rw [if_neg hxi]
          intro he
          exact hconf x (List.mem_cons_self x t) ⟨he, fun hx2 => hxi hx2⟩
      · rw [if_neg hzi]
        by_cases hxi : x.id = Option.some i
        · rw [if_pos hxi]
          intro he
          exact hconf z (List.mem_cons_of_mem x hz) ⟨he.symm, fun hz2 => hzi hz2⟩
        · rw [if_neg hxi]
          exact hxtr z hz

theorem idLt_ne_none (o : Option Nat) (n : Nat) (h : idLt o n = true) :
    o ≠ Option.none := by
  cases o with
  | none => cases h
  | some i => exact fun e => Option.noConfusion e

theorem idLt_succ (o : Option Nat) (n : Nat) (h : idLt o n = true) :
    idLt o (n + 1) = true := by
  cases o with
  | none => cases h
  | some i =>
      simp only [idLt, decide_eq_true_eq] at h ⊢
      omega

/-! ## Concrete material for witnesses and counterexamples -/

/-- A fixed digest collaborator for concrete evaluations. -/
def md5c : List UInt8 → String := fun _ => "abc123"

/-- An empty datastore. -/
def dbE : Db := { records := [], nextId := 1 }

/-! ## Claims -/

/-- C1: two sequential upserts with different non-empty values are claimed
to leave exactly one record holding the latest value, the upsert locating
its target through a query for (owner, kind) ordered by id descending.  The
database branch of type_for_form instead evaluates order_by(-id) - unary
minus applied to the Python builtin function id - and raises TypeError, so
the very first upsert that queries the database fails before reading or
writing any record. -/
theorem C1_upsert_db_path_raises :
    unique_type_for_form md5c 1 "form_license" (PyV.str "v1") Option.none
      Option.none dbE = Except.error PyError.typeError := rfl

/-- C3: public_link(owner, true) followed by the read is claimed to return
true, with the boolean stored as the literal text True.  Every public_link
call reaches type_for_form with a None form_metadata slot (the source
additionally forwards its own form_metadata argument into the data_file
slot of unique_type_for_form), so the database branch runs and raises
TypeError at order_by(-id) before anything is stored or read back. -/
theorem C3_public_link_raises :
    MetaData.public_link md5c 1 (PyV.bool true) dbE =
      Except.error PyError.typeError := rfl

/-- C10: the record model declares the storage-level unique_together
constraint over (ownerRef, kind, value), so a successful write preserves
well-formedness and triple-uniqueness of every persisted state, and a
multi-instance append that repeats an existing (owner, kind, value) -
supporting_docs shown with a file, external_export with a value - fails at
save time with IntegrityError instead of creating a second record. -/
theorem C10_unique_constraint (md5hex : List UInt8 → String) (db : Db) :
    (∀ m r db2, MetaData.save md5hex m db = Except.ok (r, db2) →
        Db.Wf db → Db.UniqueTriples db → Db.Wf db2 ∧ Db.UniqueTriples db2) ∧
    (∀ xf (f : FileData) fm, (f.name == "") = false →
        TripleIn db xf "supporting_doc" (PyV.str f.name) →
        MetaData.supporting_docs md5hex xf (Option.some f) fm db =
          Except.error PyError.integrityError) ∧
    (∀ xf v, pyTruthy v = true → TripleIn db xf "external_export" v →
        MetaData.external_export md5hex xf v db =
          Except.error PyError.integrityError) := by
  refine ⟨?_, ?_, ?_⟩
  · intro m r db2 hsave hwf huniq
    obtain ⟨fh, hsh⟩ := set_hash_shape md5hex m
    unfold MetaData.save at hsave
    rw [hsh] at hsave
    obtain ⟨noconf, hcase⟩ := dbWrite_ok_cases _ _ _ _ hsave
    rcases hcase with ⟨hid, hr, hdb⟩ | ⟨i, hid, hr, hdb⟩
    · subst hdb
      refine ⟨⟨?_, ?_⟩, ?_⟩
      · intro y hy
        rcases List.mem_append.mp hy with hy | hy
        · exact idLt_succ _ _ (hwf.1 y hy)
        · rcases List.mem_singleton.mp hy with rfl
          rw [hr]
          simp [idLt]
      · rw [List.pairwise_append]
        refine ⟨hwf.2, List.pairwise_singleton _ _, ?_⟩
        intro a ha b hb
        rcases List.mem_singleton.mp hb with rfl
        rw [hr]
        have hA := hwf.1 a ha
        cases ha2 : a.id with
        | none => rw [ha2] at hA; cases hA
        | some j =>
            rw [ha2] at hA
            simp only [idLt, decide_eq_true_eq] at hA
            simp only [ne_eq, Option.some.injEq]
            omega
      · show (db.records ++ [r]).Pairwise (fun a b => tripleOf a ≠ tripleOf b)
        apply pairwise_append_new _ _ huniq
        intro x hx hcontra
        apply noconf x hx
        refine ⟨?_, ?_⟩
        · rw [hcontra, hr]
          rfl
        · rw [hid]
          exact idLt_ne_none _ _ (hwf.1 x hx)
    · subst hdb
      have hfid : ∀ x : MetaData,
          (if x.id = Option.some i then { m with file_hash := fh } else x).id = x.id := by
        intro x
        by_cases hx : x.id = Option.some i
        · rw [if_pos hx, hx, ← hid]
        · rw [if_neg hx]
      refine ⟨⟨?_, ?_⟩, ?_⟩
      · intro y hy
        rcases List.mem_map.mp hy with ⟨x, hx, rfl⟩
        rw [hfid x]
        exact hwf.1 x hx
      · refine List.pairwise_map.mpr (hwf.2.imp ?_)
        intro a b hab
        rw [hfid a, hfid b]
        exact hab
      · show (db.records.map fun x =>
            if x.id = Option.some i then { m with file_hash := fh } else x).Pairwise
            (fun a b => tripleOf a ≠ tripleOf b)
        apply pairwise_map_update _ _ _ hwf.2 huniq
        intro x hx hc
        apply noconf x hx
        refine ⟨hc.1, ?_⟩
        rw [hid]
        exact hc.2
  · intro xf f fm hname htrip
    have hsave : MetaData.save md5hex
        { id := Option.none, xform := xf, data_type := "supporting_doc",
          data_value := PyV.str f.name, data_file := Option.some f,
          data_file_type := Option.some f.content_type,
          file_hash := Option.none } db = Except.error PyError.integrityError := by
      obtain ⟨fh, hsh⟩ := set_hash_shape md5hex
        { id := Option.none, xform := xf, data_type := "supporting_doc",
          data_value := PyV.str f.name, data_file := Option.some f,
          data_file_type := Option.some f.content_type,
          file_hash := Option.none }
      unfold MetaData.save
      rw [hsh]
      unfold dbWrite
      rw [if_pos (by
        rw [List.any_eq_true]
        rcases htrip with ⟨x, hx, hxf, hdt, hdv, hidne⟩
        refine ⟨x, hx, ?_⟩
        rw [decide_eq_true_eq]
        exact ⟨by simp [tripleOf, hxf, hdt, hdv], hidne⟩)]
    simp only [MetaData.supporting_docs]
    rw [if_neg (by simp [hname]), hsave]
  · intro xf v hv htrip
    unfold MetaData.external_export
    rw [if_pos (by rw [hv])]
    have hsave : MetaData.save md5hex
        { id := Option.none, xform := xf, data_type := "external_export",
          data_value := v, data_file := Option.none,
          data_file_type := Option.none,
          file_hash := Option.none } db = Except.error PyError.integrityError := by
      obtain ⟨fh, hsh⟩ := set_hash_shape md5hex
        { id := Option.none, xform := xf, data_type := "external_export",
          data_value := v, data_file := Option.none,
          data_file_type := Option.none, file_hash := Option.none }
      unfold MetaData.save
      rw [hsh]
      unfold dbWrite
      rw [if_pos (by
        rw [List.any_eq_true]
        rcases htrip with ⟨x, hx, hxf, hdt, hdv, hidne⟩
        refine ⟨x, hx, ?_⟩
        rw [decide_eq_true_eq]
        exact ⟨by simp [tripleOf, hxf, hdt, hdv], hidne⟩)]
    rw [hsave]

/-! ## Lemmas about the upsert -/

theorem unique_eq_core (md5hex : List UInt8 → String) (xform : Nat) (dt : String)
    (dv : PyV) (df : Option FileData) (fm : Option (List MetaData)) (db : Db)
    (hlt : listTruthy fm = true) :
    unique_type_for_form md5hex xform dt dv df fm db =
      upsertCore md5hex xform dt dv df (matchesOf fm dt) db := by
  unfold unique_type_for_form type_for_form
  rw [if_pos hlt]

theorem unique_err (md5hex : List UInt8 → String) (xform : Nat) (dt : String)
    (dv : PyV) (df : Option FileData) (fm : Option (List MetaData)) (db : Db)
    (hlt : listTruthy fm = false) :
    unique_type_for_form md5hex xform dt dv df fm db =
      Except.error PyError.typeError := by
  unfold unique_type_for_form type_for_form
  rw [if_neg (by simp [hlt])]

theorem save_match_ok (md5hex : List UInt8 → String) (X r : MetaData)
    (db db2 : Db) (w : Nat)
    (hok : (match MetaData.save md5hex X db with
            | Except.error e => Except.error e
            | Except.ok (r, db2) => Except.ok (r, db2, 1)) =
        Except.ok (r, db2, w)) :
    MetaData.save md5hex X db = Except.ok (r, db2) ∧ w = 1 := by
  cases hs : MetaData.save md5hex X db with
  | error e => rw [hs] at hok; cases hok
  | ok p =>
      rcases p with ⟨a, b⟩
      rw [hs] at hok
      simp only [Except.ok.injEq, Prod.mk.injEq] at hok
      rw [hok.1, hok.2.1]
      exact ⟨rfl, hok.2.2.symm⟩

theorem valueEmpty_of_truthy (v : PyV) (h : pyTruthy v = true) :
    valueEmpty v = false := by
  cases v with
  | none => cases h
  | bool b => rfl
  | str s =>
      simp only [pyTruthy] at h
      simp only [valueEmpty]
      simpa using h

theorem fileTruthy_some (f : FileData) : fileTruthy (Option.some f) = (f.name != "") := rfl

theorem upsertCore_spec (md5hex : List UInt8 → String) (xform : Nat) (dt : String)
    (dv : PyV) (df : Option FileData) (all : List MetaData) (db : Db)
    (r : MetaData) (db2 : Db) (w : Nat)
    (hok : upsertCore md5hex xform dt dv df all db = Except.ok (r, db2, w)) :
    w ≤ 1 ∧
    (w = 1 ↔ (all = [] ∨ pyTruthy dv = true ∨ fileTruthy df = true)) ∧
    (w = 0 → db2 = db ∧ all.head? = Option.some r) ∧
    (all = [] → r ∈ db2.records) := by
  rcases all with _ | ⟨t, ts⟩
  · by_cases hdv : pyTruthy dv = true
    · rcases df with _ | f
      · simp [upsertCore, MetaData.new, hdv] at hok
        obtain ⟨hs, rfl⟩ := save_match_ok md5hex _ r db db2 w hok
        exact ⟨by decide, by simp, by simp,
          fun _ => save_ok_mem md5hex _ r db db2 rfl hs⟩
      · have hve := valueEmpty_of_truthy dv hdv
        by_cases hfn : (f.name == "") = true
        · simp [upsertCore, MetaData.new, hdv, hfn] at hok
          obtain ⟨hs, rfl⟩ := save_match_ok md5hex _ r db db2 w hok
          exact ⟨by decide, by simp, by simp,
            fun _ => save_ok_mem md5hex _ r db db2 rfl hs⟩
        · simp [upsertCore, MetaData.new, hdv, hfn, hve] at hok
          obtain ⟨hs, rfl⟩ := save_match_ok md5hex _ r db db2 w hok
          exact ⟨by decide, by simp, by simp,
            fun _ => save_ok_mem md5hex _ r db db2 rfl hs⟩
    · rcases df with _ | f
      · simp [upsertCore, MetaData.new, hdv] at hok
        obtain ⟨hs, rfl⟩ := save_match_ok md5hex _ r db db2 w hok
        exact ⟨by decide, by simp, by simp,
          fun _ => save_ok_mem md5hex _ r db db2 rfl hs⟩
      · by_cases hfn : (f.name == "") = true
        · simp [upsertCore, MetaData.new, hdv, hfn] at hok
          obtain ⟨hs, rfl⟩ := save_match_ok md5hex _ r db db2 w hok
          exact ⟨by decide, by simp, by simp,
            fun _ => save_ok_mem md5hex _ r db db2 rfl hs⟩
        · simp [upsertCore, MetaData.new, hdv, hfn] at hok
          obtain ⟨hs, rfl⟩ := save_match_ok md5hex _ r db db2 w hok
          exact ⟨by decide, by simp, by simp,
            fun _ => save_ok_mem md5hex _ r db db2 rfl hs⟩
  · by_cases hdv : pyTruthy dv = true
    · rcases df with _ | f
      · simp [upsertCore, MetaData.new, hdv] at hok
        obtain ⟨hs, rfl⟩ := save_match_ok md5hex _ r db db2 w hok
        exact ⟨by decide, by simp [hdv], by simp, by simp⟩
      · by_cases hfn : (f.name == "") = true
        · simp [upsertCore, MetaData.new, hdv, hfn] at hok
          obtain ⟨hs, rfl⟩ := save_match_ok md5hex _ r db db2 w hok
          exact ⟨by decide, by simp [hdv], by simp, by simp⟩
        · simp [upsertCore, MetaData.new, hdv, hfn] at hok
          obtain ⟨hs, rfl⟩ := save_match_ok md5hex _ r db db2 w hok
          exact ⟨by decide, by simp [hdv], by simp, by simp⟩
    · rcases df with _ | f
      · simp [upsertCore, MetaData.new, hdv] at hok
        obtain ⟨rfl, rfl, rfl⟩ := hok
        refine ⟨by decide, ?_, fun _ => ⟨rfl, rfl⟩, by simp⟩
        simp [hdv, fileTruthy]
      · by_cases hfn : (f.name == "") = true
        · simp [upsertCore, MetaData.new, hdv, hfn] at hok
          obtain ⟨rfl, rfl, rfl⟩ := hok
          have he : f.name = "" := by simpa using hfn
          refine ⟨by decide, ?_, fun _ => ⟨rfl, rfl⟩, by simp⟩
          simp only [fileTruthy_some]
          simp [hdv, he]
        · simp [upsertCore, MetaData.new, hdv, hfn] at hok
          obtain ⟨hs, rfl⟩ := save_match_ok md5hex _ r db db2 w hok
          have hne : ¬f.name = "" := by simpa using hfn
          refine ⟨by decide, ?_, by simp, by simp⟩
          simp only [fileTruthy_some]
          simp [hne, hdv]

/-- A persisted record of kind form_license holding value v1, used as
supplied form metadata in concrete runs. -/
def recFL : MetaData :=
  { id := Option.some 1, xform := 1, data_type := "form_license",
    data_value := PyV.str "v1", data_file := Option.none,
    data_file_type := Option.none, file_hash := Option.none }

/-- The number of persistence writes reported by an upsert result. -/
def writesOf (e : Except PyError (MetaData × Db × Nat)) : Nat :=
  match e with
  | Except.ok (_, _, w) => w
  | Except.error _ => 0

/-- C2 counterexample: an upsert call supplying neither a value nor a file,
with no existing record of the requested kind among the supplied metadata,
performs one persistence write - the newly built record is saved before
being returned - whereas the claim requires zero writes and an unsaved
newly built record on that very call. -/
theorem C2_counterexample :
    writesOf (unique_type_for_form md5c 1 "source" PyV.none Option.none
      (Option.some [recFL]) dbE) = 1 := rfl

/-- C2 (amended): whenever an upsert call returns a result, it performed at
most one persistence write; a write happened exactly when the call built a
new record or was supplied a truthy value or file (so a call re-supplying
the current value still writes, and a newly built record is saved even when
neither value nor file was given); a call with zero writes left the store
untouched and returned the first located match; and when there was no match
the returned newly built record is persisted in the resulting store. -/
theorem C2_upsert_write_discipline (md5hex : List UInt8 → String) (xform : Nat)
    (dt : String) (dv : PyV) (df : Option FileData)
    (fm : Option (List MetaData)) (db : Db) (r : MetaData) (db2 : Db) (w : Nat)
    (hok : unique_type_for_form md5hex xform dt dv df fm db = Except.ok (r, db2, w)) :
    w ≤ 1 ∧
    (w = 1 ↔ (matchesOf fm dt = [] ∨ pyTruthy dv = true ∨ fileTruthy df = true)) ∧
    (w = 0 → db2 = db ∧ (matchesOf fm dt).head? = Option.some r) ∧
    (matchesOf fm dt = [] → r ∈ db2.records) := by
  cases hlt : listTruthy fm with
  | false =>
      rw [unique_err md5hex xform dt dv df fm db hlt] at hok
      cases hok
  | true =>
      rw [unique_eq_core md5hex xform dt dv df fm db hlt] at hok
      exact upsertCore_spec md5hex xform dt dv df (matchesOf fm dt) db r db2 w hok

/-- The record recFL after the concrete witness update. -/
def recFL2 : MetaData :=
  { id := Option.some 1, xform := 1, data_type := "form_license",
    data_value := PyV.str "v2", data_file := Option.none,
    data_file_type := Option.none, file_hash := Option.none }

/-- The store holding exactly recFL. -/
def dbFL : Db := { records := [recFL], nextId := 2 }

/-- The store holding exactly recFL2. -/
def dbFL2 : Db := { records := [recFL2], nextId := 2 }

/-- Witness for the amended C2 at a concrete value-updating call. -/
theorem C2_upsert_write_discipline_witness :
    1 ≤ 1 ∧
    (1 = 1 ↔ (matchesOf (Option.some [recFL]) "form_license" = [] ∨
        pyTruthy (PyV.str "v2") = true ∨ fileTruthy Option.none = true)) ∧
    (1 = 0 → dbFL2 = dbFL ∧
        (matchesOf (Option.some [recFL]) "form_license").head? = Option.some recFL2) ∧
    (matchesOf (Option.some [recFL]) "form_license" = [] → recFL2 ∈ dbFL2.records) :=
  C2_upsert_write_discipline md5c 1 "form_license" (PyV.str "v2") Option.none
    (Option.some [recFL]) dbFL recFL2 dbFL2 1 rfl

/-- C8: when an upsert call supplies a truthy file and no truthy value, and
the located mutation target holds an empty value (automatic for a newly
built record), the returned record's value equals the file's name and the
file with its declared content type is attached to it. -/
theorem C8_file_defaults_value (md5hex : List UInt8 → String) (xform : Nat)
    (dt : String) (dv : PyV) (f : FileData) (fm : Option (List MetaData))
    (db : Db) (r : MetaData) (db2 : Db) (w : Nat)
    (hfn : (f.name == "") = false)
    (hdv : pyTruthy dv = false)
    (htgt : ∀ t2, (matchesOf fm dt).head? = Option.some t2 →
        valueEmpty t2.data_value = true)
    (hok : unique_type_for_form md5hex xform dt dv (Option.some f) fm db =
        Except.ok (r, db2, w)) :
    r.data_value = PyV.str f.name ∧ r.data_file = Option.some f ∧
    r.data_file_type = Option.some f.content_type := by
  cases hlt : listTruthy fm with
  | false =>
      rw [unique_err md5hex xform dt dv (Option.some f) fm db hlt] at hok
      cases hok
  | true =>
      rw [unique_eq_core md5hex xform dt dv (Option.some f) fm db hlt] at hok
      rcases hM : matchesOf fm dt with _ | ⟨t, ts⟩ <;> rw [hM] at hok
      · simp [upsertCore, MetaData.new, hdv, hfn, valueEmpty] at hok
        obtain ⟨hs, rfl⟩ := save_match_ok md5hex _ r db db2 w hok
        obtain ⟨h1, h2, h3, _, _⟩ := save_ok_fields md5hex _ r db db2 hs
        exact ⟨h1, h2, h3⟩
      · have hve : valueEmpty t.data_value = true := htgt t (by rw [hM]; rfl)
        simp [upsertCore, hdv, hfn, hve] at hok
        obtain ⟨hs, rfl⟩ := save_match_ok md5hex _ r db db2 w hok
        obtain ⟨h1, h2, h3, _, _⟩ := save_ok_fields md5hex _ r db db2 hs
        exact ⟨h1, h2, h3⟩

/-- The uploaded file of the C8 witness. -/
def fPng : FileData :=
  { name := "photo.png", content_type := PyCT.str "image/png",
    content := [], seekOk := true, existsInStorage := false }

/-- The record resulting from the C8 witness call. -/
def recC8 : MetaData :=
  { id := Option.some 1, xform := 1, data_type := "source",
    data_value := PyV.str "photo.png", data_file := Option.some fPng,
    data_file_type := Option.some (PyCT.str "image/png"),
    file_hash := Option.some "md5:abc123" }

/-- The store after the C8 witness call. -/
def dbC8 : Db := { records := [recC8], nextId := 2 }

/-- Witness for C8 at a concrete call: a source upsert given only a file. -/
theorem C8_file_defaults_value_witness :
    recC8.data_value = PyV.str fPng.name ∧ recC8.data_file = Option.some fPng ∧
    recC8.data_file_type = Option.some fPng.content_type :=
  C8_file_defaults_value md5c 1 "source" PyV.none fPng (Option.some [recFL])
    dbE recC8 dbC8 1 rfl rfl (fun t2 ht => nomatch ht) rfl

/-- A persisted supporting document record. -/
def recSD : MetaData :=
  { id := Option.some 1, xform := 1, data_type := "supporting_doc",
    data_value := PyV.str "doc.pdf", data_file := Option.none,
    data_file_type := Option.none, file_hash := Option.none }

/-- The store holding exactly recSD. -/
def dbSD : Db := { records := [recSD], nextId := 2 }

/-- The duplicate upload of the C10 witness. -/
def fPdf : FileData :=
  { name := "doc.pdf", content_type := PyCT.str "application/pdf",
    content := [], seekOk := true, existsInStorage := true }

/-- Witness for C10: appending a supporting document whose triple is already
persisted raises IntegrityError at save time. -/
theorem C10_unique_constraint_witness :
    MetaData.supporting_docs md5c 1 (Option.some fPdf) Option.none dbSD =
      Except.error PyError.integrityError :=
  (C10_unique_constraint md5c dbSD).2.1 1 fPdf Option.none rfl
    ⟨recSD, List.mem_cons_self recSD [], rfl, rfl, rfl, fun h => Option.noConfusion h⟩

/-- C4 counterexample: a map whose field value contains the two-character
delimiter does not survive the encode-decode round trip - the stored pieces
shift and decoding returns a different map than the one encoded. -/
theorem C4_counterexample :
    mapbox_deserialize (mapbox_serialize [("a", "x||y")] ["a"]) ["a"] =
      Option.some [("a", "x")] ∧
    Option.some [("a", "x")] ≠ Option.some [("a", "x||y")] :=
  ⟨rfl, by decide⟩

/-- C4 (amended): encode joins the field value of each canonical key, in
that fixed order, with the literal two-character delimiter; and for every
map covering exactly the canonical keys whose values neither contain the
delimiter nor end with the pipe character, decoding the encoding under the
same keys returns the map (as frozen, the claim fails for values containing
the delimiter - see the counterexample). -/
theorem C4_roundtrip (keys : List String) (v : String → String)
    (hv : ∀ k ∈ keys, hasPP (v k).data = false ∧
        (v k).data.getLast? ≠ Option.some '|') :
    mapbox_serialize (keys.map (fun k => (k, v k))) keys =
      pyJoin "||" (keys.map v) ∧
    mapbox_deserialize (mapbox_serialize (keys.map (fun k => (k, v k))) keys) keys =
      Option.some (keys.map (fun k => (k, v k))) := by
  have hser : mapbox_serialize (keys.map (fun k => (k, v k))) keys =
      pyJoin "||" (keys.map v) := by
    unfold mapbox_serialize
    congr 1
    apply List.map_congr_left
    intro k hk
    rw [lookup_map_self v keys k hk]
    rfl
  refine ⟨hser, ?_⟩
  rw [hser]
  cases keys with
  | nil => rfl
  | cons k ks =>
      have hsplit : pySplit2 (pyJoin "||" ((k :: ks).map v)) = (k :: ks).map v := by
        apply pySplit2_pyJoin
        · simp
        · intro p hp
          rcases List.mem_map.mp hp with ⟨y, hy, rfl⟩
          exact hv y hy
      simp only [mapbox_deserialize]
      rw [hsplit]
      rw [if_neg (by simp)]
      rw [zip_self_map]

/-- The value assignment of the C4 witness. -/
def vW : String → String := fun k => if k == "a" then "x" else "y"

/-- Witness for the amended C4 on two canonical keys. -/
theorem C4_roundtrip_witness :
    mapbox_serialize (["a", "b"].map (fun k => (k, vW k))) ["a", "b"] =
      pyJoin "||" (["a", "b"].map vW) ∧
    mapbox_deserialize
        (mapbox_serialize (["a", "b"].map (fun k => (k, vW k))) ["a", "b"])
        ["a", "b"] =
      Option.some (["a", "b"].map (fun k => (k, vW k))) :=
  C4_roundtrip ["a", "b"] vW (by decide)

/-- C5: deserialising a stored map-layer value with fewer delimiter-separated
pieces than canonical keys yields no value (the logged corruption branch),
and the decoder is a total function that otherwise returns a map covering
exactly the canonical keys - it never raises. -/
theorem C5_deserialize_corruption (value : String) (keys : List String) :
    ((pySplit2 value).length < keys.length →
      mapbox_deserialize value keys = Option.none) ∧
    (keys.length ≤ (pySplit2 value).length →
      ∃ m, mapbox_deserialize value keys = Option.some m ∧
        m.map Prod.fst = keys) := by
  constructor
  · intro h
    simp only [mapbox_deserialize]
    rw [if_pos h]
  · intro h
    refine ⟨keys.zip (pySplit2 value), ?_, ?_⟩
    · simp only [mapbox_deserialize]
      rw [if_neg (by omega)]
    · exact List.map_fst_zip keys (pySplit2 value) h

/-- Witness for C5: two pieces against three canonical keys decode to no
value. -/
theorem C5_deserialize_corruption_witness :
    mapbox_deserialize "a||b" ["k1", "k2", "k3"] = Option.none :=
  (C5_deserialize_corruption "a||b" ["k1", "k2", "k3"]).1 (by decide)

/-- Pipe-freeness of a string. -/
@[reducible]
def noPipe (s : String) : Prop := '|' ∉ s.data

/-- A record holding a two-pipe external export value. -/
def recE : MetaData :=
  { id := Option.some 1, xform := 1, data_type := "external_export",
    data_value := PyV.str "a|b|c", data_file := Option.none,
    data_file_type := Option.none, file_hash := Option.none }

/-- C9 counterexample: on the value a|b|c the url accessor returns b, the
piece between the first and second pipes, not the whole text b|c after the
first pipe as the claim states. -/
theorem C9_counterexample :
    MetaData.external_export_url recE = Option.some "b" ∧
    MetaData.external_export_url recE ≠ Option.some "b|c" :=
  ⟨rfl, by decide⟩

/-- C9 (amended): the export accessors parse the value into pipe-separated
pieces.  With no pipe, all three accessors return nothing.  Otherwise the
name is the text before the first pipe and the url is the second piece -
the text between the first and second pipes when a second pipe exists, not
everything after the first pipe - while the template is that url piece with
every occurrence of xls replaced by templates. -/
theorem C9_external_export_fields (m : MetaData) (s : String)
    (hval : m.data_value = PyV.str s) :
    (noPipe s → m.external_export_name = Option.none ∧
      m.external_export_url = Option.none ∧
      m.external_export_template = Option.none) ∧
    (∀ a b, noPipe a → noPipe b → s = a ++ "|" ++ b →
      m.external_export_name = Option.some a ∧
      m.external_export_url = Option.some b ∧
      m.external_export_template = Option.some (pyReplaceXls b)) ∧
    (∀ a b c, noPipe a → noPipe b → s = a ++ "|" ++ b ++ "|" ++ c →
      m.external_export_name = Option.some a ∧
      m.external_export_url = Option.some b ∧
      m.external_export_template = Option.some (pyReplaceXls b)) := by
  refine ⟨?_, ?_, ?_⟩
  · intro hnp
    have hparts : pySplitCh '|' s = [s] := by
      unfold pySplitCh
      rw [splitCh_no_sep '|' s.data hnp]
      simp [string_mk_data]
    refine ⟨?_, ?_, ?_⟩ <;>
      simp [MetaData.external_export_name, MetaData.external_export_url,
        MetaData.external_export_template, hval, hparts]
  · intro a b hna hnb hs
    have hdata : s.data = a.data ++ '|' :: b.data := by
      rw [hs, String.data_append, String.data_append]
      rw [show ("|".data : List Char) = ['|'] from rfl]
      simp [List.append_assoc]
    have hsplit : splitCh '|' s.data = [a.data, b.data] := by
      rw [hdata, splitCh_append '|' a.data b.data hna,
        splitCh_no_sep '|' b.data hnb]
    have hparts : pySplitCh '|' s = [a, b] := by
      unfold pySplitCh
      rw [hsplit]
      simp [string_mk_data]
    refine ⟨?_, ?_, ?_⟩ <;>
      simp [MetaData.external_export_name, MetaData.external_export_url,
        MetaData.external_export_template, hval, hparts]
  · intro a b c hna hnb hs
    have hdata : s.data = a.data ++ '|' :: (b.data ++ '|' :: c.data) := by
      rw [hs]
      rw [String.data_append, String.data_append, String.data_append,
        String.data_append]
      rw [show ("|".data : List Char) = ['|'] from rfl]
      simp [List.append_assoc]
    have hsplit : splitCh '|' s.data = a.data :: b.data :: splitCh '|' c.data := by
      rw [hdata, splitCh_append '|' a.data _ hna, splitCh_append '|' b.data _ hnb]
    have hparts : pySplitCh '|' s =
        a :: b :: (splitCh '|' c.data).map (fun l => String.mk l) := by
      unfold pySplitCh
      rw [hsplit]
      simp [string_mk_data]
    refine ⟨?_, ?_, ?_⟩ <;>
      simp [MetaData.external_export_name, MetaData.external_export_url,
        MetaData.external_export_template, hval, hparts]

/-- The record of the C9 witness, holding the scenario value. -/
def recE2 : MetaData :=
  { id := Option.some 2, xform := 1, data_type := "external_export",
    data_value := PyV.str "My Export|https://host/path/file.xls",
    data_file := Option.none, data_file_type := Option.none,
    file_hash := Option.none }

/-- Witness for the amended C9 on the scenario value. -/
theorem C9_external_export_fields_witness :
    recE2.external_export_name = Option.some "My Export" ∧
    recE2.external_export_url = Option.some "https://host/path/file.xls" ∧
    recE2.external_export_template =
      Option.some "https://host/path/file.templates" := by
  have h := (C9_external_export_fields recE2 "My Export|https://host/path/file.xls"
    rfl).2.1 "My Export" "https://host/path/file.xls" (by decide) (by decide)
    (by decide)
  exact ⟨h.1, h.2.1, by rw [h.2.2]; decide⟩

theorem flatten_filter_nonempty (l : List (List UInt8)) :
    (l.filter (fun c => !c.isEmpty)).flatten = l.flatten := by
  induction l with
  | nil => rfl
  | cons c t ih =>
      by_cases hc : c.isEmpty
      · have hc2 : c = [] := by simpa using hc
        simp [List.filter_cons, hc, hc2, ih]
      · simp [List.filter_cons, hc, ih]

/-- C6: a media record with no attached file whose value is an accepted
absolute uri resolves to a record whose value is rewritten to the uri's
final path segment, with the fetched bytes attached - their length the
total fetched byte count - under a content type guessed from that filename,
and media_resources with download keeps exactly the resolved record; when
the validator rejects the value, resolution is absent and media_resources
silently drops the record from its output. -/
theorem C6_media_resolution (valid_url : String → Bool)
    (guess_type : String → Option String × Option String)
    (fetch : String → List (List UInt8)) (m : MetaData) (uri : String)
    (rest : List MetaData)
    (hval : m.data_value = PyV.str uri) (hfile : m.data_file = Option.none) :
    (valid_url uri = true →
      ∃ md fd, create_media valid_url guess_type fetch m = Option.some md ∧
        md.data_value = PyV.str ((pySplitCh '/' uri).getLastD "") ∧
        md.data_file = Option.some fd ∧
        fd.name = (pySplitCh '/' uri).getLastD "" ∧
        fd.content = (fetch uri).flatten ∧
        fd.content.length = ((fetch uri).map List.length).sum ∧
        fd.content_type = PyCT.pair (guess_type fd.name).1 (guess_type fd.name).2 ∧
        media_resources valid_url guess_type fetch (m :: rest) true =
          md :: media_resources valid_url guess_type fetch rest true) ∧
    (valid_url uri = false →
      create_media valid_url guess_type fetch m = Option.none ∧
      media_resources valid_url guess_type fetch (m :: rest) true =
        media_resources valid_url guess_type fetch rest true) := by
  constructor
  · intro hv
    have hcm : create_media valid_url guess_type fetch m = Option.some
        { m with
          data_value := PyV.str ((pySplitCh '/' uri).getLastD ""),
          data_file := Option.some
            { name := (pySplitCh '/' uri).getLastD "",
              content_type := PyCT.pair
                (guess_type ((pySplitCh '/' uri).getLastD "")).1
                (guess_type ((pySplitCh '/' uri).getLastD "")).2,
              content := (fetch uri).flatten, seekOk := true,
              existsInStorage := false } } := by
      simp only [create_media, hval]
      rw [if_pos hv, flatten_filter_nonempty]
    refine ⟨_, _, hcm, rfl, rfl, rfl, rfl, List.length_flatten _, rfl, ?_⟩
    simp [media_resources, dataFileName, hfile, hcm]
  · intro hv
    have hcm : create_media valid_url guess_type fetch m = Option.none := by
      simp only [create_media, hval]
      rw [if_neg (by simp [hv])]
    refine ⟨hcm, ?_⟩
    simp [media_resources, dataFileName, hfile, hcm]

/-- The url validator of the C6 witness. -/
def validW : String → Bool := fun u => u == "https://example.com/img/cat.png"

/-- The content-type guesser of the C6 witness. -/
def guessW : String → Option String × Option String :=
  fun _ => (Option.some "image/png", Option.none)

/-- The mocked chunked fetch of the C6 witness. -/
def fetchW : String → List (List UInt8) := fun _ => [[1, 2], [], [3]]

/-- The unresolved media record of the C6 witness. -/
def mW : MetaData :=
  { id := Option.some 1, xform := 1, data_type := "media",
    data_value := PyV.str "https://example.com/img/cat.png",
    data_file := Option.none, data_file_type := Option.none,
    file_hash := Option.none }

/-- Witness for C6: resolving the scenario record against a mocked fetch. -/
theorem C6_media_resolution_witness :
    ∃ md fd, create_media validW guessW fetchW mW = Option.some md ∧
      md.data_value =
        PyV.str ((pySplitCh '/' "https://example.com/img/cat.png").getLastD "") ∧
      md.data_file = Option.some fd ∧
      fd.name = (pySplitCh '/' "https://example.com/img/cat.png").getLastD "" ∧
      fd.content = (fetchW "https://example.com/img/cat.png").flatten ∧
      fd.content.length =
        ((fetchW "https://example.com/img/cat.png").map List.length).sum ∧
      fd.content_type = PyCT.pair (guessW fd.name).1 (guessW fd.name).2 ∧
      media_resources validW guessW fetchW (mW :: []) true =
        md :: media_resources validW guessW fetchW [] true :=
  (C6_media_resolution validW guessW fetchW mW "https://example.com/img/cat.png"
    [] rfl rfl).1 (by decide)

/-- Lowercase-hex syntax. -/
def isLowerHex (s : String) : Bool :=
  s.data.all (fun c => c.isDigit || (decide ('a' ≤ c) && decide (c ≤ 'f')))

theorem md5_prefix_ne_empty (x : String) : ("md5:" ++ x) ≠ "" := by
  intro h
  have h2 := congrArg String.data h
  rw [String.data_append] at h2
  rw [show ("md5:".data : List Char) = ['m', 'd', '5', ':'] from rfl] at h2
  cases h2

/-- C7: on a record whose attached file has a name and a rewindable stream,
two hash reads return the same digest string; the second read is a cache
hit - it returns the fileHash cached on the record and performs no stream
read - and whenever the first read actually computed (the cache was None or
empty), its digest is the md5 of the full content in the form algorithm
colon lowercase-hex digest, one stream read having occurred (given that the
digest collaborator emits lowercase hex). -/
theorem C7_hash_idempotent (md5hex : List UInt8 → String) (m : MetaData)
    (f : FileData) (d1 d2 : Option String) (m1 m2 : MetaData) (n1 n2 : Nat)
    (hf : m.data_file = Option.some f) (hn : (f.name == "") = false)
    (hsk : f.seekOk = true)
    (hhex : ∀ bs, isLowerHex (md5hex bs) = true)
    (h1 : MetaData.hash md5hex m = (d1, m1, n1))
    (h2 : MetaData.hash md5hex m1 = (d2, m2, n2)) :
    d1 = d2 ∧ n2 = 0 ∧ d2 = m1.file_hash ∧
    ((m.file_hash = Option.none ∨ m.file_hash = Option.some "") →
      d1 = Option.some ("md5:" ++ md5hex f.content) ∧ n1 = 1 ∧
      ∃ dg, d1 = Option.some ("md5:" ++ dg) ∧ isLowerHex dg = true) := by
  have hcond : ((f.existsInStorage && f.name != "") ||
      (!f.existsInStorage && f.name != "")) = true := by
    cases hE : f.existsInStorage <;> simp [hE, hn, bne]
  have hsh : MetaData._set_hash md5hex m =
      ({ m with file_hash := Option.some ("md5:" ++ md5hex f.content) },
        Option.some ("md5:" ++ md5hex f.content), 1) := by
    simp only [MetaData._set_hash, hf]
    rw [if_neg (by simp [hn]), if_pos hcond, if_pos hsk]
  have hcached : MetaData.hash md5hex
      { m with file_hash := Option.some ("md5:" ++ md5hex f.content) } =
      (Option.some ("md5:" ++ md5hex f.content),
        { m with file_hash := Option.some ("md5:" ++ md5hex f.content) }, 0) := by
    simp only [MetaData.hash]
    rw [if_pos (by rw [bne_iff_ne]; exact md5_prefix_ne_empty _)]
  rcases hfh : m.file_hash with _ | hh
  · have e1 : MetaData.hash md5hex m =
        (Option.some ("md5:" ++ md5hex f.content),
          { m with file_hash := Option.some ("md5:" ++ md5hex f.content) }, 1) := by
      simp only [MetaData.hash, hfh]
      rw [hsh]
    rw [e1] at h1
    simp only [Prod.mk.injEq] at h1
    obtain ⟨rfl, rfl, rfl⟩ := h1
    rw [hcached] at h2
    simp only [Prod.mk.injEq] at h2
    obtain ⟨rfl, rfl, rfl⟩ := h2
    exact ⟨rfl, rfl, rfl,
      fun _ => ⟨rfl, rfl, md5hex f.content, rfl, hhex _⟩⟩
  · by_cases hhe : hh = ""
    · subst hhe
      have e1 : MetaData.hash md5hex m =
          (Option.some ("md5:" ++ md5hex f.content),
            { m with file_hash := Option.some ("md5:" ++ md5hex f.content) }, 1) := by
        simp only [MetaData.hash, hfh]
        rw [if_neg (by simp), hsh]
      rw [e1] at h1
      simp only [Prod.mk.injEq] at h1
      obtain ⟨rfl, rfl, rfl⟩ := h1
      rw [hcached] at h2
      simp only [Prod.mk.injEq] at h2
      obtain ⟨rfl, rfl, rfl⟩ := h2
      exact ⟨rfl, rfl, rfl,
        fun _ => ⟨rfl, rfl, md5hex f.content, rfl, hhex _⟩⟩
    · have e1 : MetaData.hash md5hex m = (Option.some hh, m, 0) := by
        simp only [MetaData.hash, hfh]
        rw [if_pos (by rw [bne_iff_ne]; exact hhe)]
      rw [e1] at h1
      simp only [Prod.mk.injEq] at h1
      obtain ⟨rfl, rfl, rfl⟩ := h1
      rw [e1] at h2
      simp only [Prod.mk.injEq] at h2
      obtain ⟨rfl, rfl, rfl⟩ := h2
      refine ⟨rfl, rfl, hfh.symm, ?_⟩
      intro hcon
      rcases hcon with h | h
      · cases h
      · simp at h
        exact absurd h hhe

/-- The record of the C7 witness before hashing. -/
def recC7 : MetaData :=
  { id := Option.some 3, xform := 1, data_type := "source",
    data_value := PyV.str "photo.png", data_file := Option.some fPng,
    data_file_type := Option.some (PyCT.str "image/png"),
    file_hash := Option.none }

/-- The record of the C7 witness after the first hash read. -/
def recC7h : MetaData := { recC7 with file_hash := Option.some "md5:abc123" }

/-- Witness for C7 at a concrete record and digest collaborator. -/
theorem C7_hash_idempotent_witness :
    Option.some "md5:abc123" = Option.some "md5:abc123" ∧ 0 = 0 ∧
    Option.some "md5:abc123" = recC7h.file_hash ∧
    ((recC7.file_hash = Option.none ∨ recC7.file_hash = Option.some "") →
      Option.some "md5:abc123" = Option.some ("md5:" ++ md5c fPng.content) ∧
      1 = 1 ∧
      ∃ dg, Option.some "md5:abc123" = Option.some ("md5:" ++ dg) ∧
        isLowerHex dg = true) :=
  C7_hash_idempotent md5c recC7 fPng (Option.some "md5:abc123")
    (Option.some "md5:abc123") recC7h recC7h 1 0 rfl rfl rfl
    (fun _ => (by decide : isLowerHex "abc123" = true)) rfl rfl
